import Mathlib

/-!
Verification of the collection & ingestion pipeline of the
`github-issue-analysis` repository, as a shallow embedding of
`src/github_issue_analysis/cli/collect.py` and of the components it calls.
The helper components that the repository imports but whose sources are not
available here (date validation, exclusion-list building, the searcher, the
attachment downloader and the storage manager) are modelled from the
specification, as marked on each definition.
-/

namespace GhCollect

/-- Download status of an attachment (spec section 3: `pending`,
`downloaded`, `skipped_oversized`, `failed`). -/
inductive AttachmentStatus where
  | pending
  | downloaded
  | skipped_oversized
  | failed
deriving DecidableEq, Repr

/-- An attachment detected in an issue body or a comment body
(spec section 3). Sizes are in bytes. -/
structure Attachment where
  filename : String
  url : String
  source_location : String
  declared_size : Option Nat
  observed_size : Nat
  local_path : Option String
  status : AttachmentStatus
deriving DecidableEq, Repr

/-- A comment of an issue (spec section 3). -/
structure IssueComment where
  author : String
  body : String
  created_at : Int
deriving DecidableEq, Repr

/-- A GitHub issue as handled by `collect.py` (`GitHubIssue` in
`github_client/models.py`; field set from spec section 3 and the accesses in
`cli/collect.py`: `number`, `title`, `state`, `repository_name`, `comments`,
`attachments`). -/
structure GitHubIssue where
  number : Nat
  title : String
  body : Option String
  state : String
  labels : List String
  created_at : Int
  updated_at : Int
  closed_at : Option Int
  repository_name : Option String
  comments : List IssueComment
  attachments : List Attachment
deriving DecidableEq, Repr

/-- Identity key of a stored issue: (organization, repository, number)
(spec section 3). -/
abbrev StoreKey := String × String × Nat

/-- The durable store: an association list from store keys to issues. A
well-formed store has no duplicate keys (one file per key on disk). -/
abbrev Store := List (StoreKey × GitHubIssue)

/-- Keys currently present in a store. -/
def storeKeys (store : Store) : List StoreKey :=
  store.map Prod.fst

/-- A store is well-formed when no key occurs twice (on disk, a key names
one file). -/
def NodupKeys (store : Store) : Prop :=
  (storeKeys store).Nodup

/-- Number of records held under one key. -/
def countKey (store : Store) (k : StoreKey) : Nat :=
  (storeKeys store).countP (fun x => x = k)

/-- The record a store holds under a key, if any. -/
def lookupIssue (store : Store) (k : StoreKey) : Option GitHubIssue :=
  (store.find? (fun e => e.1 = k)).map Prod.snd

/-- Modelled from the spec: `StorageManager` upsert semantics (spec section
4.5) — re-saving an issue with the same key overwrites the prior record
rather than duplicating it. Writing under a key replaces the existing
record for that key, else appends a fresh record. The source of
`storage/manager.py` is not in the provided tree. -/
def upsertIssue : Store → StoreKey → GitHubIssue → Store
  | [], k, v => [(k, v)]
  | (k0, v0) :: rest, k, v =>
    if k0 = k then (k, v) :: rest
    else (k0, v0) :: upsertIssue rest k v

/-- Modelled from the spec: `StorageManager.save_issues` (spec section 4.5)
persists each issue of the list under its (organization, repository, number)
key, idempotently, and returns the paths/keys written. The source of
`storage/manager.py` is not in the provided tree. -/
def save_issues : Store → String → String → List GitHubIssue → Store × List StoreKey
  | store, _, _, [] => (store, [])
  | store, org, repo, issue :: rest =>
    let k : StoreKey := (org, repo, issue.number)
    let r := save_issues (upsertIssue store k issue) org repo rest
    (r.1, k :: r.2)

/-- Grouping key used by `collect.py` in organization mode (line 324):
`issue.repository_name or "unknown_repo"`. -/
def groupKey (issue : GitHubIssue) : String :=
  issue.repository_name.getD "unknown_repo"

/-- One step of the dictionary grouping of `collect.py` lines 322-327:
append the issue to the group of its key if that key is already present,
else add a new group at the end (dictionary insertion order). -/
def addToGroup : List (String × List GitHubIssue) → String → GitHubIssue →
    List (String × List GitHubIssue)
  | [], key, issue => [(key, [issue])]
  | (k0, g0) :: rest, key, issue =>
    if k0 = key then (k0, g0 ++ [issue]) :: rest
    else (k0, g0) :: addToGroup rest key issue

/-- The grouping loop of `collect.py` lines 322-327, folding the issues
into the `issues_by_repo` dictionary. -/
def groupIssues : List (String × List GitHubIssue) → List GitHubIssue →
    List (String × List GitHubIssue)
  | acc, [] => acc
  | acc, issue :: rest => groupIssues (addToGroup acc (groupKey issue) issue) rest

/-- `issues_by_repo` of `collect.py` lines 321-327: the issues grouped by
each issue's own repository-name attribute. -/
def issuesByRepo (issues : List GitHubIssue) : List (String × List GitHubIssue) :=
  groupIssues [] issues

/-- The save loop of `collect.py` lines 329-333: each group is saved under
its own repository name, and the written keys accumulate. -/
def saveGrouped : Store → String → List (String × List GitHubIssue) →
    Store × List StoreKey
  | store, _, [] => (store, [])
  | store, org, (rname, ris) :: rest =>
    let r1 := save_issues store org rname ris
    let r2 := saveGrouped r1.1 org rest
    (r2.1, r1.2 ++ r2.2)

/-- Organization-mode persistence of `collect.py` lines 320-333: group by
each issue's own repository name, then save every group. -/
def orgModeSave (store : Store) (org : String) (issues : List GitHubIssue) :
    Store × List StoreKey :=
  saveGrouped store org (issuesByRepo issues)

/-- Error taxonomy of the pipeline (spec section 7). The CLI surfaces these
as error exits; the kind is what matters here. -/
inductive CollectError where
  | validation
  | auth
  | notFound
  | collection
deriving DecidableEq, Repr

/-- Date-filter inputs of `collect` (`cli/collect.py` options, lines
50-72): absolute bounds and relative windows. Calendar dates are modelled
as integers (days). -/
structure DateParams where
  created_after : Option Int
  created_before : Option Int
  updated_after : Option Int
  updated_before : Option Int
  last_days : Option Nat
  last_weeks : Option Nat
  last_months : Option Nat
deriving DecidableEq, Repr

/-- The canonical four-slot tuple produced by date resolution (spec
section 4.1). -/
structure ResolvedDates where
  created_after : Option Int
  created_before : Option Int
  updated_after : Option Int
  updated_before : Option Int
deriving DecidableEq, Repr

/-- How many relative date options were supplied. -/
def relativeCount (p : DateParams) : Nat :=
  (if p.last_days.isSome then 1 else 0) +
    (if p.last_weeks.isSome then 1 else 0) +
    (if p.last_months.isSome then 1 else 0)

/-- The window, in days, of the supplied relative option (days, 7 x weeks,
30 x months — an approximation, not calendar-exact). -/
def windowDays (p : DateParams) : Option Nat :=
  match p.last_days, p.last_weeks, p.last_months with
  | some d, _, _ => some d
  | none, some w, _ => some (7 * w)
  | none, none, some m => some (30 * m)
  | none, none, none => none

/-- Both bounds known implies after ≤ before. -/
def orderOk : Option Int → Option Int → Bool
  | some a, some b => a ≤ b
  | _, _ => true

/-- Modelled from the spec: `validate_date_parameters` of
`utils/date_parser.py` (spec section 4.1), whose source is not in the
provided tree. Fails when more than one relative option is supplied, or
when a relative option and an absolute created bound are both supplied, or
when after > before on either axis; a relative window resolves to
`created_after = now - window` with `created_before` unset. -/
def validate_date_parameters (now : Int) (p : DateParams) :
    Except CollectError ResolvedDates :=
  if 2 ≤ relativeCount p then .error .validation
  else if 1 ≤ relativeCount p ∧ (p.created_after.isSome ∨ p.created_before.isSome) then
    .error .validation
  else
    let ca : Option Int :=
      match windowDays p with
      | some w => some (now - w)
      | none => p.created_after
    let cb : Option Int :=
      match windowDays p with
      | some _ => none
      | none => p.created_before
    if orderOk ca cb ∧ orderOk p.updated_after p.updated_before then
      .ok ⟨ca, cb, p.updated_after, p.updated_before⟩
    else .error .validation

/-- Order-preserving deduplication. -/
def dedupPreserve (xs : List String) : List String :=
  xs.foldl (fun acc x => if acc.contains x then acc else acc ++ [x]) []

/-- Modelled from the spec: `build_exclusion_list` of
`github_client/search.py` (spec section 4.2), whose source is not in the
provided tree. Merges the repeated option values and the comma-separated
string (split and trimmed) into a deduplicated ordered list. -/
def build_exclusion_list (excludeRepo : List String) (excludeRepos : Option String) :
    List String :=
  let csv :=
    match excludeRepos with
    | none => []
    | some s => ((s.splitOn ",").map (fun t => t.trim)).filter (fun t => t ≠ "")
  dedupPreserve (excludeRepo ++ csv)

/-- The three collection modes of `collect.py` (lines 139-147). -/
inductive Mode where
  | single_issue
  | organization
  | repository
deriving DecidableEq, Repr

/-- Mode derivation and parameter validation of `collect.py` lines 131-148:
an issue number without a repository is rejected; otherwise the mode is
single_issue when an issue number is given, organization when no repository
is given, and repository otherwise. -/
def collection_mode (issue_number : Option Nat) (repo : Option String) :
    Except CollectError Mode :=
  match issue_number with
  | some _ =>
    match repo with
    | none => .error .validation
    | some _ => .ok .single_issue
  | none =>
    match repo with
    | none => .ok .organization
    | some _ => .ok .repository

/-- The remote issue-tracker API (spec section 6): repository listing per
organization, per-repository issue search results (already filtered by
label, state and dates, in the source's native order), and single-issue
fetch. -/
structure RemoteAPI where
  repoListing : String → List String
  repoIssues : String → String → List GitHubIssue
  singleIssue : String → String → Nat → Option GitHubIssue

/-- Tag an issue with the repository it came from (organization-wide mode
denormalizes the repository name onto each issue, spec section 3). -/
def tagRepo (r : String) (issue : GitHubIssue) : GitHubIssue :=
  { issue with repository_name := some r }

/-- Modelled from the spec: the repository strategy of
`GitHubSearcher.search_repository_issues` (spec section 4.3), whose source
is not in the provided tree. Paginates until the limit is reached and
truncates, not rounds up, to exactly the limit. -/
def search_repository_issues (api : RemoteAPI) (org repo : String) (limit : Nat) :
    List GitHubIssue :=
  (api.repoIssues org repo).take limit

/-- Modelled from the spec: the organization strategy loop (spec section
4.3) — iterate the repositories of the listing, skip any repository in the
exclusion set, apply the repository strategy to each and concatenate up to
the overall limit. -/
def orgSearchLoop (api : RemoteAPI) (org : String) (excluded : List String) :
    List String → Nat → List GitHubIssue
  | [], _ => []
  | r :: rest, remaining =>
    if remaining = 0 then []
    else if r ∈ excluded then orgSearchLoop api org excluded rest remaining
    else
      let got := ((api.repoIssues org r).map (tagRepo r)).take remaining
      got ++ orgSearchLoop api org excluded rest (remaining - got.length)

/-- Modelled from the spec: `GitHubSearcher.search_organization_issues`
(spec section 4.3), whose source is not in the provided tree. -/
def search_organization_issues (api : RemoteAPI) (org : String)
    (excluded : List String) (limit : Nat) : List GitHubIssue :=
  orgSearchLoop api org excluded (api.repoListing org) limit

/-- Observable steps of a paginated search: waiting out a rate-limit reset,
or successfully consuming one page. -/
inductive PageEvent where
  | waited
  | fetchedPage (idx : Nat)
deriving DecidableEq, Repr

/-- Modelled from the spec: rate-limit handling of the searcher (spec
section 4.3), whose source is not in the provided tree. The remote holds
the query's pages; the schedule gives, for each page index, how many
rate-limit signals are received before that page is served. On each signal
the strategy waits out the reset and retries the same page — it never
restarts from page one and never drops consumed pages. Real reset clocks
are abstracted into `waited` events. -/
def runPagination : List (List GitHubIssue) → (Nat → Nat) → Nat →
    List GitHubIssue × List PageEvent
  | [], _, _ => ([], [])
  | page :: rest, sched, idx =>
    let r := runPagination rest sched (idx + 1)
    (page ++ r.1,
      List.replicate (sched idx) PageEvent.waited ++ PageEvent.fetchedPage idx :: r.2)

/-- Indices of the pages successfully consumed, in consumption order. -/
def fetchedIndices (evs : List PageEvent) : List Nat :=
  evs.filterMap (fun e => match e with | .fetchedPage i => some i | .waited => none)

/-- A repository-mode paginated search under a rate-limit schedule:
the consumed issues, truncated to the limit. -/
def search_repository_paginated (pages : List (List GitHubIssue))
    (sched : Nat → Nat) (limit : Nat) : List GitHubIssue :=
  (runPagination pages sched 0).1.take limit

/-- Size ceiling in bytes for a `--max-attachment-size` value in MB. -/
def ceilingBytes (maxMB : Nat) : Nat :=
  maxMB * 1024 * 1024

/-- Storage path of a downloaded attachment, namespaced by
organization/repository/issue-number/filename (spec section 4.4). -/
def attachmentPath (org rname : String) (inum : Nat) (a : Attachment) : String :=
  org ++ "/" ++ rname ++ "/" ++ toString inum ++ "/" ++ a.filename

/-- Modelled from the spec: the download step of `AttachmentDownloader`
(spec section 4.4), whose source is not in the provided tree. If the
observed size exceeds the ceiling mid-transfer the download is aborted,
the status becomes `skipped_oversized` and partial bytes are discarded;
other failures (after the retry budget, abstracted into the `netFails`
oracle) mark the attachment `failed`; success stores the content and marks
it `downloaded`. -/
def downloadResult (ceiling : Nat) (netFails : String → Bool) (path : String)
    (a : Attachment) : Attachment :=
  if ceiling < a.observed_size then
    { a with status := .skipped_oversized, local_path := none }
  else if netFails a.url then { a with status := .failed }
  else { a with status := .downloaded, local_path := some path }

/-- Modelled from the spec: processing of one pending attachment (spec
section 4.4, steps 1-4). A declared size above the ceiling skips the
download outright; otherwise the download step runs. Non-pending
attachments are left untouched. -/
def process_attachment (ceiling : Nat) (netFails : String → Bool)
    (org rname : String) (inum : Nat) (a : Attachment) : Attachment :=
  if a.status = .pending then
    match a.declared_size with
    | some d =>
      if ceiling < d then { a with status := .skipped_oversized }
      else downloadResult ceiling netFails (attachmentPath org rname inum a) a
    | none => downloadResult ceiling netFails (attachmentPath org rname inum a) a
  else a

/-- Modelled from the spec: `AttachmentDownloader.download_issue_attachments`
(spec section 4.4), whose source is not in the provided tree — every
attachment of the issue is brought to a terminal status; the issue itself
always survives. -/
def download_issue_attachments (ceiling : Nat) (netFails : String → Bool)
    (org rname : String) (issue : GitHubIssue) : GitHubIssue :=
  { issue with
      attachments :=
        issue.attachments.map (process_attachment ceiling netFails org rname issue.number) }

/-- Repository name used for attachment downloads (`collect.py` line 301):
the `--repo` argument when given, else the issue's own repository name. -/
def attachmentRepoName (repo : Option String) (issue : GitHubIssue) : Option String :=
  match repo with
  | some r => some r
  | none => issue.repository_name

/-- Attachment phase for one issue (`collect.py` lines 288-313): issues
with no attachments, or with no resolvable repository name, are passed
through; otherwise every attachment is processed. Detection (line 292) is
abstracted: the attachments listed on the issue are the detected ones. -/
def processIssueForAttachments (ceiling : Nat) (netFails : String → Bool)
    (org : String) (repo : Option String) (issue : GitHubIssue) : GitHubIssue :=
  if issue.attachments.isEmpty then issue
  else
    match attachmentRepoName repo issue with
    | none => issue
    | some rname => download_issue_attachments ceiling netFails org rname issue

/-- Observable side effects of one `collect` run that the claims speak
about: client construction, remote API search traffic, attachment
downloads. -/
inductive Event where
  | clientInit
  | apiCall
  | attachmentFetch
deriving DecidableEq, Repr

/-- The options of the `collect` command (`cli/collect.py` lines 19-87). -/
structure CollectInput where
  org : String
  repo : Option String
  issue_number : Option Nat
  labels : List String
  limit : Nat
  state : String
  token : Option String
  download_attachments : Bool
  max_attachment_size : Nat
  dates : DateParams
  exclude_repo : List String
  exclude_repos : Option String

/-- The environment a run executes against: the environment-provided
default token, the remote API, the network-failure oracle for attachment
downloads, and the current date. -/
structure CollectEnv where
  envToken : Option String
  api : RemoteAPI
  netFails : String → Bool
  now : Int

/-- Modelled from the spec: token resolution of `GitHubClient` (spec
section 6, source not in the provided tree) — the `--token` option falls
back to the environment-provided default. -/
def resolveToken (opt envDefault : Option String) : Option String :=
  match opt with
  | some t => some t
  | none => envDefault

/-- Exclusion set computed by `collect.py` lines 150-153: built only in
organization mode, empty otherwise. -/
def collectExcluded (inp : CollectInput) (mode : Mode) : List String :=
  if mode = Mode.organization then
    build_exclusion_list inp.exclude_repo inp.exclude_repos
  else []

/-- The search dispatch of `collect.py` lines 204-269: one strategy per
mode. -/
def collectSearch (inp : CollectInput) (env : CollectEnv) (mode : Mode)
    (excluded : List String) : Except CollectError (List GitHubIssue) :=
  match mode with
  | .single_issue =>
    match inp.repo, inp.issue_number with
    | some r, some n =>
      match env.api.singleIssue inp.org r n with
      | some issue => .ok [issue]
      | none => .error .notFound
    | _, _ => .error .validation
  | .organization =>
    .ok (search_organization_issues env.api inp.org excluded inp.limit)
  | .repository =>
    match inp.repo with
    | some r => .ok (search_repository_issues env.api inp.org r inp.limit)
    | none => .error .validation

/-- The `collect` command of `cli/collect.py` (lines 114-377): date
validation, mode validation, client construction, search, the attachment
phase (which requires a resolved token), storage with organization-mode
grouping. Returns the outcome together with the observable events, in
order; on an error outcome nothing has been persisted. -/
def collect (inp : CollectInput) (env : CollectEnv) (store : Store) :
    Except CollectError (Store × List StoreKey) × List Event :=
  match validate_date_parameters env.now inp.dates with
  | .error _ => (.error .validation, [])
  | .ok _ =>
    match collection_mode inp.issue_number inp.repo with
    | .error e => (.error e, [])
    | .ok mode =>
      let excluded := collectExcluded inp mode
      let clientToken := resolveToken inp.token env.envToken
      let evs := [Event.clientInit, Event.apiCall]
      match collectSearch inp env mode excluded with
      | .error e => (.error e, evs)
      | .ok issues =>
        if issues.isEmpty then (.ok (store, []), evs)
        else if inp.download_attachments ∧ clientToken.isNone then
          (.error .auth, evs)
        else
          let issuesP :=
            if inp.download_attachments then
              issues.map
                (processIssueForAttachments (ceilingBytes inp.max_attachment_size)
                  env.netFails inp.org inp.repo)
            else issues
          let evs2 := evs ++
            (if inp.download_attachments then [Event.attachmentFetch] else [])
          match mode with
          | Mode.organization => (.ok (orgModeSave store inp.org issuesP), evs2)
          | _ =>
            match inp.repo with
            | some r0 => (.ok (save_issues store inp.org r0 issuesP), evs2)
            | none => (.error .validation, evs2)

theorem storeKeys_upsert (store : Store) (k : StoreKey) (v : GitHubIssue) :
    storeKeys (upsertIssue store k v) =
      if k ∈ storeKeys store then storeKeys store else storeKeys store ++ [k] := by
  induction store with
  | nil => simp [upsertIssue, storeKeys]
  | cons e rest ih =>
    obtain ⟨k0, v0⟩ := e
    by_cases hk : k0 = k
    · subst hk
      simp [upsertIssue, storeKeys]
    · simp only [upsertIssue, if_neg hk, storeKeys, List.map_cons] at *
      rw [ih]
      by_cases hmem : k ∈ storeKeys rest
      · simp [storeKeys] at hmem
        simp [hmem, Ne.symm hk]
      · simp [storeKeys] at hmem
        simp [hmem, Ne.symm hk]

theorem nodupKeys_upsert (store : Store) (k : StoreKey) (v : GitHubIssue)
    (h : NodupKeys store) : NodupKeys (upsertIssue store k v) := by
  unfold NodupKeys at *
  rw [storeKeys_upsert]
  by_cases hmem : k ∈ storeKeys store
  · simpa [hmem] using h
  · simp only [hmem, if_false]
    simp [List.nodup_append, h, hmem]

theorem lookupIssue_upsert_self (store : Store) (k : StoreKey) (v : GitHubIssue) :
    lookupIssue (upsertIssue store k v) k = some v := by
  induction store with
  | nil => simp [upsertIssue, lookupIssue, List.find?]
  | cons e rest ih =>
    obtain ⟨k0, v0⟩ := e
    by_cases hk : k0 = k
    · subst hk
      simp [upsertIssue, lookupIssue, List.find?]
    · simp only [upsertIssue, if_neg hk]
      simpa [lookupIssue, List.find?, hk] using ih

theorem countP_key_eq_one {l : List StoreKey} {k : StoreKey}
    (hnd : l.Nodup) (hmem : k ∈ l) : l.countP (fun x => x = k) = 1 := by
  induction l with
  | nil => simp at hmem
  | cons a t ih =>
    rw [List.nodup_cons] at hnd
    rcases List.mem_cons.mp hmem with h | h
    · subst h
      have : t.countP (fun x => x = k) = 0 := by
        rw [List.countP_eq_zero]
        intro x hx
        simp only [decide_eq_true_eq]
        intro hxk
        exact hnd.1 (hxk ▸ hx)
      simp [List.countP_cons, this]
    · have hne : a ≠ k := by
        intro hak
        exact hnd.1 (hak ▸ h)
      rw [List.countP_cons]
      simp only [decide_eq_true_eq, hne]
      simpa using ih hnd.2 h

theorem mem_storeKeys_upsert_self (store : Store) (k : StoreKey) (v : GitHubIssue) :
    k ∈ storeKeys (upsertIssue store k v) := by
  rw [storeKeys_upsert]
  by_cases hmem : k ∈ storeKeys store <;> simp [hmem]

theorem mem_storeKeys_upsert_mono (store : Store) (k k0 : StoreKey) (v : GitHubIssue)
    (h : k0 ∈ storeKeys store) : k0 ∈ storeKeys (upsertIssue store k v) := by
  rw [storeKeys_upsert]
  by_cases hmem : k ∈ storeKeys store <;> simp [hmem, h]

theorem countKey_upsert_self (store : Store) (k : StoreKey) (v : GitHubIssue)
    (h : NodupKeys store) : countKey (upsertIssue store k v) k = 1 := by
  unfold countKey
  have hnd : NodupKeys (upsertIssue store k v) := nodupKeys_upsert store k v h
  exact countP_key_eq_one hnd (mem_storeKeys_upsert_self store k v)

theorem nodupKeys_save_issues (store : Store) (org repo : String)
    (issues : List GitHubIssue) (h : NodupKeys store) :
    NodupKeys (save_issues store org repo issues).1 := by
  induction issues generalizing store with
  | nil => simpa [save_issues] using h
  | cons i rest ih =>
    simp only [save_issues]
    exact ih _ (nodupKeys_upsert _ _ _ h)

theorem mem_storeKeys_save_mono (store : Store) (org repo : String)
    (issues : List GitHubIssue) (k0 : StoreKey) (h : k0 ∈ storeKeys store) :
    k0 ∈ storeKeys (save_issues store org repo issues).1 := by
  induction issues generalizing store with
  | nil => simpa [save_issues] using h
  | cons i rest ih =>
    simp only [save_issues]
    exact ih _ (mem_storeKeys_upsert_mono _ _ _ _ h)

theorem mem_storeKeys_save_of_mem (store : Store) (org repo : String)
    (issues : List GitHubIssue) (issue : GitHubIssue) (h : issue ∈ issues) :
    (org, repo, issue.number) ∈ storeKeys (save_issues store org repo issues).1 := by
  induction issues generalizing store with
  | nil => simp at h
  | cons i rest ih =>
    simp only [save_issues]
    rcases List.mem_cons.mp h with h1 | h1
    · subst h1
      exact mem_storeKeys_save_mono _ _ _ _ _
        (mem_storeKeys_upsert_self store _ issue)
    · exact ih _ h1

theorem addToGroup_self (acc : List (String × List GitHubIssue))
    (key : String) (issue : GitHubIssue) :
    ∃ g, (key, g) ∈ addToGroup acc key issue ∧ issue ∈ g := by
  induction acc with
  | nil => exact ⟨[issue], by simp [addToGroup]⟩
  | cons e rest ih =>
    obtain ⟨k0, g0⟩ := e
    by_cases hk : k0 = key
    · subst hk
      exact ⟨g0 ++ [issue], by simp [addToGroup]⟩
    · obtain ⟨g, hg, hmem⟩ := ih
      exact ⟨g, by simp [addToGroup, hk, hg], hmem⟩

theorem addToGroup_preserves (acc : List (String × List GitHubIssue))
    (key : String) (j : GitHubIssue) (k : String) (g : List GitHubIssue)
    (issue : GitHubIssue) (hin : (k, g) ∈ acc) (hmem : issue ∈ g) :
    ∃ g2, (k, g2) ∈ addToGroup acc key j ∧ issue ∈ g2 := by
  induction acc with
  | nil => simp at hin
  | cons e rest ih =>
    obtain ⟨k0, g0⟩ := e
    rcases List.mem_cons.mp hin with h1 | h1
    · rw [Prod.mk.injEq] at h1
      obtain ⟨hk, hg⟩ := h1
      subst hk
      subst hg
      by_cases hk0 : k = key
      · subst hk0
        exact ⟨g ++ [j], by simp [addToGroup], by simp [hmem]⟩
      · exact ⟨g, by simp [addToGroup, hk0], hmem⟩
    · by_cases hk0 : k0 = key
      · subst hk0
        exact ⟨g, by simp [addToGroup, h1], hmem⟩
      · obtain ⟨g2, hg2, hm2⟩ := ih h1
        exact ⟨g2, by simp [addToGroup, hk0, hg2], hm2⟩

theorem groupIssues_preserves (issues : List GitHubIssue)
    (acc : List (String × List GitHubIssue)) (k : String)
    (g : List GitHubIssue) (issue : GitHubIssue)
    (hin : (k, g) ∈ acc) (hmem : issue ∈ g) :
    ∃ g2, (k, g2) ∈ groupIssues acc issues ∧ issue ∈ g2 := by
  induction issues generalizing acc g with
  | nil => exact ⟨g, by simpa [groupIssues] using hin, hmem⟩
  | cons j rest ih =>
    simp only [groupIssues]
    obtain ⟨g2, hg2, hm2⟩ := addToGroup_preserves acc (groupKey j) j k g issue hin hmem
    exact ih _ _ hg2 hm2

theorem groupIssues_mem (issues : List GitHubIssue)
    (acc : List (String × List GitHubIssue)) (issue : GitHubIssue)
    (h : issue ∈ issues) :
    ∃ g, (groupKey issue, g) ∈ groupIssues acc issues ∧ issue ∈ g := by
  induction issues generalizing acc with
  | nil => simp at h
  | cons j rest ih =>
    simp only [groupIssues]
    rcases List.mem_cons.mp h with h1 | h1
    · subst h1
      obtain ⟨g, hg, hmem⟩ := addToGroup_self acc (groupKey issue) issue
      exact groupIssues_preserves rest _ _ _ _ hg hmem
    · exact ih _ h1

theorem addToGroup_wellKeyed (acc : List (String × List GitHubIssue))
    (key : String) (j : GitHubIssue) (hj : groupKey j = key)
    (h : ∀ p ∈ acc, ∀ i ∈ p.2, groupKey i = p.1) :
    ∀ p ∈ addToGroup acc key j, ∀ i ∈ p.2, groupKey i = p.1 := by
  induction acc with
  | nil =>
    intro p hp i hi
    simp [addToGroup] at hp
    subst hp
    simp at hi
    subst hi
    exact hj
  | cons e rest ih =>
    obtain ⟨k0, g0⟩ := e
    intro p hp i hi
    by_cases hk : k0 = key
    · rw [addToGroup, if_pos hk] at hp
      rcases List.mem_cons.mp hp with h1 | h1
      · subst h1
        rcases List.mem_append.mp hi with h2 | h2
        · exact h (k0, g0) (List.mem_cons_self _ _) i h2
        · simp at h2
          subst h2
          rw [hj]
          exact hk.symm
      · exact h p (List.mem_cons_of_mem _ h1) i hi
    · rw [addToGroup, if_neg hk] at hp
      rcases List.mem_cons.mp hp with h1 | h1
      · subst h1
        exact h (k0, g0) (List.mem_cons_self _ _) i hi
      · exact ih (fun q hq => h q (List.mem_cons_of_mem _ hq)) p h1 i hi

theorem groupIssues_wellKeyed (issues : List GitHubIssue)
    (acc : List (String × List GitHubIssue))
    (h : ∀ p ∈ acc, ∀ i ∈ p.2, groupKey i = p.1) :
    ∀ p ∈ groupIssues acc issues, ∀ i ∈ p.2, groupKey i = p.1 := by
  induction issues generalizing acc with
  | nil => simpa [groupIssues] using h
  | cons j rest ih =>
    simp only [groupIssues]
    exact ih _ (addToGroup_wellKeyed acc (groupKey j) j rfl h)

theorem mem_storeKeys_saveGrouped_mono (store : Store) (org : String)
    (groups : List (String × List GitHubIssue)) (k0 : StoreKey)
    (h : k0 ∈ storeKeys store) :
    k0 ∈ storeKeys (saveGrouped store org groups).1 := by
  induction groups generalizing store with
  | nil => simpa [saveGrouped] using h
  | cons p rest ih =>
    obtain ⟨rname, ris⟩ := p
    simp only [saveGrouped]
    exact ih _ (mem_storeKeys_save_mono _ _ _ _ _ h)

theorem mem_storeKeys_saveGrouped (store : Store) (org : String)
    (groups : List (String × List GitHubIssue)) (rname : String)
    (ris : List GitHubIssue) (issue : GitHubIssue)
    (hgrp : (rname, ris) ∈ groups) (hmem : issue ∈ ris) :
    (org, rname, issue.number) ∈ storeKeys (saveGrouped store org groups).1 := by
  induction groups generalizing store with
  | nil => simp at hgrp
  | cons p rest ih =>
    obtain ⟨r0, g0⟩ := p
    simp only [saveGrouped]
    rcases List.mem_cons.mp hgrp with h1 | h1
    · rw [Prod.mk.injEq] at h1
      obtain ⟨hr, hg⟩ := h1
      subst hr
      subst hg
      exact mem_storeKeys_saveGrouped_mono _ _ _ _
        (mem_storeKeys_save_of_mem store org rname ris issue hmem)
    · exact ih _ h1

/-- C6: for every validated request, the derived collection mode is
single_issue iff the issue number is set, organization iff the issue number
is unset and the repository is absent, and repository otherwise; no other
assignment is reachable. -/
theorem collection_mode_spec (issue_number : Option Nat) (repo : Option String)
    (m : Mode) (h : collection_mode issue_number repo = .ok m) :
    (m = Mode.single_issue ↔ issue_number.isSome) ∧
      (m = Mode.organization ↔ issue_number = none ∧ repo = none) ∧
      (m = Mode.repository ↔ issue_number = none ∧ repo.isSome) := by
  cases issue_number <;> cases repo <;> simp only [collection_mode] at h
  · injection h with h
    subst h
    simp
  · injection h with h
    subst h
    simp
  · exact Except.noConfusion h
  · injection h with h
    subst h
    simp

/-- Witness for C6 at a concrete validated request. -/
theorem collection_mode_spec_witness :
    (Mode.single_issue = Mode.single_issue ↔ (some 5 : Option Nat).isSome) ∧
      (Mode.single_issue = Mode.organization ↔
        (some 5 : Option Nat) = none ∧ (some "widgets" : Option String) = none) ∧
      (Mode.single_issue = Mode.repository ↔
        (some 5 : Option Nat) = none ∧ (some "widgets" : Option String).isSome) :=
  collection_mode_spec (some 5) (some "widgets") Mode.single_issue rfl

/-- C7: supplying a relative date window together with an absolute created
bound fails with a validation error, for every combination, and so does
supplying more than one relative option. -/
theorem validate_dates_conflict (now : Int) (p : DateParams)
    (h : (1 ≤ relativeCount p ∧
            (p.created_after.isSome ∨ p.created_before.isSome)) ∨
          2 ≤ relativeCount p) :
    validate_date_parameters now p = .error .validation := by
  unfold validate_date_parameters
  by_cases h2 : 2 ≤ relativeCount p
  · rw [if_pos h2]
  · rw [if_neg h2]
    rcases h with h1 | h1
    · rw [if_pos h1]
    · exact absurd h1 h2

/-- Witness for C7: one relative window plus one absolute created bound. -/
theorem validate_dates_conflict_witness :
    validate_date_parameters 0
        ⟨some 3, none, none, none, some 7, none, none⟩ =
      .error .validation :=
  validate_dates_conflict 0 ⟨some 3, none, none, none, some 7, none, none⟩
    (Or.inl ⟨by decide, by decide⟩)

/-- C1: saving an issue twice under the same (organization, repository,
number) key through `save_issues` leaves exactly one stored record for that
key, holding the second save's data — upsert semantics, no append-only
log. -/
theorem save_issues_idempotent_key (store : Store) (org repo : String)
    (i1 i2 : GitHubIssue) (hnd : NodupKeys store) (hnum : i1.number = i2.number) :
    countKey (save_issues (save_issues store org repo [i1]).1 org repo [i2]).1
        (org, repo, i1.number) = 1 ∧
      lookupIssue (save_issues (save_issues store org repo [i1]).1 org repo [i2]).1
        (org, repo, i1.number) = some i2 := by
  have hs2 : (save_issues (save_issues store org repo [i1]).1 org repo [i2]).1 =
      upsertIssue (upsertIssue store (org, repo, i1.number) i1)
        (org, repo, i2.number) i2 := rfl
  rw [hs2, hnum]
  have hnd1 : NodupKeys (upsertIssue store (org, repo, i2.number) i1) :=
    nodupKeys_upsert store _ i1 hnd
  exact ⟨countKey_upsert_self _ _ i2 hnd1, lookupIssue_upsert_self _ _ i2⟩

/-- A concrete issue used by the witnesses. -/
def sampleIssue : GitHubIssue :=
  { number := 7, title := "first title", body := none, state := "closed",
    labels := [], created_at := 0, updated_at := 0, closed_at := none,
    repository_name := none, comments := [], attachments := [] }

/-- Witness for C1 at a concrete pair of saves over the empty store. -/
theorem save_issues_idempotent_key_witness :
    countKey
        (save_issues (save_issues [] "acme" "widgets" [sampleIssue]).1
          "acme" "widgets" [{ sampleIssue with title := "second title" }]).1
        ("acme", "widgets", 7) = 1 ∧
      lookupIssue
        (save_issues (save_issues [] "acme" "widgets" [sampleIssue]).1
          "acme" "widgets" [{ sampleIssue with title := "second title" }]).1
        ("acme", "widgets", 7) =
        some { sampleIssue with title := "second title" } :=
  save_issues_idempotent_key [] "acme" "widgets" sampleIssue
    { sampleIssue with title := "second title" }
    (by simp [NodupKeys, storeKeys]) rfl

/-- C8: before writing, organization-mode saving groups issues by each
issue's own repository-name attribute — every input issue lands in the
group of its own key, every group holds only issues of its own key, and
every input issue is persisted under the group of its own repository
name. -/
theorem orgMode_grouping (store : Store) (org : String)
    (issues : List GitHubIssue) (issue : GitHubIssue) (h : issue ∈ issues) :
    (∃ g, (groupKey issue, g) ∈ issuesByRepo issues ∧ issue ∈ g) ∧
      (∀ p ∈ issuesByRepo issues, ∀ i ∈ p.2, groupKey i = p.1) ∧
      (org, groupKey issue, issue.number) ∈
        storeKeys (orgModeSave store org issues).1 := by
  refine ⟨groupIssues_mem issues [] issue h,
    groupIssues_wellKeyed issues [] (by simp), ?_⟩
  obtain ⟨g, hg, hmem⟩ := groupIssues_mem issues [] issue h
  exact mem_storeKeys_saveGrouped store org _ _ _ _ hg hmem

/-- A second concrete issue, from another repository, for the grouping
witness. -/
def gadgetIssue : GitHubIssue :=
  { sampleIssue with number := 9, repository_name := some "gadgets" }

/-- Witness for C8 on a two-repository input. -/
theorem orgMode_grouping_witness :
    ((∃ g, (groupKey gadgetIssue, g) ∈ issuesByRepo [sampleIssue, gadgetIssue] ∧
        gadgetIssue ∈ g) ∧
      (∀ p ∈ issuesByRepo [sampleIssue, gadgetIssue], ∀ i ∈ p.2, groupKey i = p.1) ∧
      ("acme", groupKey gadgetIssue, gadgetIssue.number) ∈
        storeKeys (orgModeSave [] "acme" [sampleIssue, gadgetIssue]).1) :=
  orgMode_grouping [] "acme" [sampleIssue, gadgetIssue] gadgetIssue (by simp)

/-- C9: an issue whose repository-name attribute is missing is not rejected
or dropped by organization-mode saving: it is grouped and persisted under
the literal repository name "unknown_repo". -/
theorem orgMode_unknown_repo (store : Store) (org : String)
    (issues : List GitHubIssue) (issue : GitHubIssue)
    (h : issue ∈ issues) (hrn : issue.repository_name = none) :
    groupKey issue = "unknown_repo" ∧
      (∃ g, ("unknown_repo", g) ∈ issuesByRepo issues ∧ issue ∈ g) ∧
      (org, "unknown_repo", issue.number) ∈
        storeKeys (orgModeSave store org issues).1 := by
  have hk : groupKey issue = "unknown_repo" := by simp [groupKey, hrn]
  obtain ⟨g, hg, hmem⟩ := groupIssues_mem issues [] issue h
  rw [hk] at hg
  exact ⟨hk, ⟨g, hg, hmem⟩, mem_storeKeys_saveGrouped store org _ _ _ _ hg hmem⟩

/-- Witness for C9: a repository-name-less issue persists under
"unknown_repo". -/
theorem orgMode_unknown_repo_witness :
    groupKey sampleIssue = "unknown_repo" ∧
      (∃ g, ("unknown_repo", g) ∈ issuesByRepo [sampleIssue, gadgetIssue] ∧
        sampleIssue ∈ g) ∧
      ("acme", "unknown_repo", sampleIssue.number) ∈
        storeKeys (orgModeSave [] "acme" [sampleIssue, gadgetIssue]).1 :=
  orgMode_unknown_repo [] "acme" [sampleIssue, gadgetIssue] sampleIssue
    (by simp) rfl

/-- Every issue produced by the organization search loop is tagged with the
name of a non-excluded repository of the listing. -/
theorem orgSearchLoop_excluded (api : RemoteAPI) (org : String)
    (excluded : List String) (listing : List String) (remaining : Nat)
    (issue : GitHubIssue)
    (h : issue ∈ orgSearchLoop api org excluded listing remaining) :
    ∃ r, issue.repository_name = some r ∧ r ∉ excluded := by
  induction listing generalizing remaining with
  | nil => simp [orgSearchLoop] at h
  | cons r0 rest ih =>
    rw [orgSearchLoop] at h
    by_cases h0 : remaining = 0
    · rw [if_pos h0] at h
      simp at h
    · rw [if_neg h0] at h
      by_cases hex : r0 ∈ excluded
      · rw [if_pos hex] at h
        exact ih _ h
      · rw [if_neg hex] at h
        rcases List.mem_append.mp h with h1 | h1
        · have h2 := List.mem_of_mem_take h1
          obtain ⟨i0, _, htag⟩ := List.mem_map.mp h2
          refine ⟨r0, ?_, hex⟩
          rw [← htag]
          rfl
        · exact ih _ h1

/-- C3: organization-mode collection with an exclusion set never returns —
and via the grouping key never persists — an issue originating from an
excluded repository, even when the remote listing contains it. -/
theorem org_search_respects_exclusions (api : RemoteAPI) (org : String)
    (excluded : List String) (limit : Nat) (issue : GitHubIssue)
    (h : issue ∈ search_organization_issues api org excluded limit) :
    (∃ r, issue.repository_name = some r ∧ r ∉ excluded) ∧
      groupKey issue ∉ excluded := by
  obtain ⟨r, hr, hex⟩ := orgSearchLoop_excluded api org excluded _ _ issue h
  refine ⟨⟨r, hr, hex⟩, ?_⟩
  rw [groupKey, hr]
  exact hex

/-- A remote with three repositories, one of them excluded below. -/
def threeRepoAPI : RemoteAPI :=
  { repoListing := fun _ => ["widgets", "legacy", "gadgets"],
    repoIssues := fun _ r =>
      if r = "legacy" then [{ sampleIssue with number := 13 }] else [sampleIssue],
    singleIssue := fun _ _ _ => none }

/-- Witness for C3: an issue returned by an excluded-aware search carries a
non-excluded repository name. -/
theorem org_search_respects_exclusions_witness :
    (∃ r, (tagRepo "widgets" sampleIssue).repository_name = some r ∧
        r ∉ ["legacy", "archive"]) ∧
      groupKey (tagRepo "widgets" sampleIssue) ∉ ["legacy", "archive"] :=
  org_search_respects_exclusions threeRepoAPI "acme" ["legacy", "archive"] 5
    (tagRepo "widgets" sampleIssue) (by decide)

/-- C4: a pending attachment whose observed byte size exceeds the
configured ceiling is marked `skipped_oversized` with no stored bytes, and
the owning issue still goes through `save_issues` — an oversized attachment
never aborts the issue save. -/
theorem oversized_attachment_skipped (maxMB : Nat) (netFails : String → Bool)
    (org rname : String) (issue : GitHubIssue) (a : Attachment) (store : Store)
    (ha : a ∈ issue.attachments) (hp : a.status = AttachmentStatus.pending)
    (hlp : a.local_path = none)
    (hsz : ceilingBytes maxMB < a.observed_size) :
    (process_attachment (ceilingBytes maxMB) netFails org rname issue.number a).status
        = AttachmentStatus.skipped_oversized ∧
      (process_attachment (ceilingBytes maxMB) netFails org rname issue.number
          a).local_path = none ∧
      process_attachment (ceilingBytes maxMB) netFails org rname issue.number a ∈
        (download_issue_attachments (ceilingBytes maxMB) netFails org rname
          issue).attachments ∧
      (org, rname, issue.number) ∈
        storeKeys
          (save_issues store org rname
            [download_issue_attachments (ceilingBytes maxMB) netFails org rname
              issue]).1 := by
  have hres : process_attachment (ceilingBytes maxMB) netFails org rname issue.number a
        = { a with status := AttachmentStatus.skipped_oversized } ∨
      process_attachment (ceilingBytes maxMB) netFails org rname issue.number a
        = { a with status := AttachmentStatus.skipped_oversized, local_path := none } := by
    unfold process_attachment downloadResult
    rw [if_pos hp]
    cases hd : a.declared_size with
    | none =>
      right
      simp [hsz, hd]
    | some d =>
      by_cases hdc : ceilingBytes maxMB < d
      · left
        simp [hdc]
      · right
        simp [hdc, hsz]
  refine ⟨?_, ?_, List.mem_map_of_mem _ ha, ?_⟩
  · rcases hres with h1 | h1
    · rw [h1]
    · rw [h1]
  · rcases hres with h1 | h1
    · rw [h1]
      simpa using hlp
    · rw [h1]
  · exact mem_storeKeys_save_of_mem store org rname
      [download_issue_attachments (ceilingBytes maxMB) netFails org rname issue]
      (download_issue_attachments (ceilingBytes maxMB) netFails org rname issue)
      (by simp)

/-- A concrete oversized pending attachment for the C4 witness. -/
def bigAttachment : Attachment :=
  { filename := "dump.bin", url := "https://example.test/dump.bin",
    source_location := "issue_body", declared_size := none,
    observed_size := 11 * 1024 * 1024, local_path := none,
    status := AttachmentStatus.pending }

/-- A concrete issue owning the oversized attachment. -/
def bigIssue : GitHubIssue :=
  { sampleIssue with number := 42, attachments := [bigAttachment] }

/-- Witness for C4 at a 10 MB ceiling and an 11 MB attachment. -/
theorem oversized_attachment_skipped_witness :
    (process_attachment (ceilingBytes 10) (fun _ => false) "acme" "widgets"
        bigIssue.number bigAttachment).status
        = AttachmentStatus.skipped_oversized ∧
      (process_attachment (ceilingBytes 10) (fun _ => false) "acme" "widgets"
          bigIssue.number bigAttachment).local_path = none ∧
      process_attachment (ceilingBytes 10) (fun _ => false) "acme" "widgets"
          bigIssue.number bigAttachment ∈
        (download_issue_attachments (ceilingBytes 10) (fun _ => false) "acme"
          "widgets" bigIssue).attachments ∧
      ("acme", "widgets", bigIssue.number) ∈
        storeKeys
          (save_issues [] "acme" "widgets"
            [download_issue_attachments (ceilingBytes 10) (fun _ => false) "acme"
              "widgets" bigIssue]).1 :=
  oversized_attachment_skipped 10 (fun _ => false) "acme" "widgets" bigIssue
    bigAttachment [] (by simp [bigIssue]) rfl rfl (by decide)

/-- Rate-limit waits do not change which issues a paginated search
consumes: the consumed sequence is the concatenation of the pages. -/
theorem runPagination_issues (pages : List (List GitHubIssue))
    (sched : Nat → Nat) (idx : Nat) :
    (runPagination pages sched idx).1 = pages.flatten := by
  induction pages generalizing idx with
  | nil => simp [runPagination]
  | cons p rest ih => simp [runPagination, ih]

/-- No page index is produced by the wait events. -/
theorem fetchedIndices_replicate_waited (n : Nat) :
    fetchedIndices (List.replicate n PageEvent.waited) = [] := by
  induction n with
  | zero => rfl
  | succ m ih => simp [fetchedIndices, List.replicate_succ]

/-- The pages a paginated search consumes, in order, are exactly the page
indices starting at the given one — one fetch per page, never a restart. -/
theorem fetchedIndices_runPagination (pages : List (List GitHubIssue))
    (sched : Nat → Nat) (idx : Nat) :
    fetchedIndices (runPagination pages sched idx).2 =
      List.range' idx pages.length := by
  induction pages generalizing idx with
  | nil => simp [runPagination, fetchedIndices]
  | cons p rest ih =>
    have hw := fetchedIndices_replicate_waited (sched idx)
    simp only [runPagination, fetchedIndices, List.filterMap_append,
      List.filterMap_cons, List.length_cons, List.range'_succ]
    rw [fetchedIndices] at hw
    rw [hw]
    simpa [fetchedIndices] using ih (idx + 1)

/-- C5: a repository-mode search receiving rate-limit signals
mid-pagination waits them out and resumes from the last successfully
consumed page — the consumed-page indices are exactly 0, 1, ... with no
restart and no dropped page — and it returns the same issues, hence the
same total issue count, as an equivalent run against an API that never
rate-limits. -/
theorem rate_limited_search_equivalent (pages : List (List GitHubIssue))
    (sched : Nat → Nat) (limit : Nat) :
    search_repository_paginated pages sched limit =
        search_repository_paginated pages (fun _ => 0) limit ∧
      (search_repository_paginated pages sched limit).length =
        (search_repository_paginated pages (fun _ => 0) limit).length ∧
      fetchedIndices (runPagination pages sched 0).2 = List.range pages.length := by
  have he : search_repository_paginated pages sched limit =
      search_repository_paginated pages (fun _ => 0) limit := by
    unfold search_repository_paginated
    rw [runPagination_issues, runPagination_issues]
  refine ⟨he, by rw [he], ?_⟩
  rw [fetchedIndices_runPagination, List.range_eq_range']

/-- C2: a request with the issue number set and the repository unset fails
with a validation error before any network access — the run produces no
observable event at all: no client construction, no API call. -/
theorem issue_number_requires_repo (inp : CollectInput) (env : CollectEnv)
    (store : Store) (n : Nat) (hn : inp.issue_number = some n)
    (hr : inp.repo = none) :
    (collect inp env store).1 = .error .validation ∧
      (collect inp env store).2 = [] := by
  unfold collect
  cases hv : validate_date_parameters env.now inp.dates with
  | error e => exact ⟨rfl, rfl⟩
  | ok d => simp [collection_mode, hn, hr]

/-- A request asking for one issue without naming a repository. -/
def c2Input : CollectInput :=
  { org := "acme", repo := none, issue_number := some 42, labels := [],
    limit := 10, state := "closed", token := some "tok",
    download_attachments := true, max_attachment_size := 10,
    dates := ⟨none, none, none, none, none, none, none⟩,
    exclude_repo := [], exclude_repos := none }

/-- A remote with no repositories and no issues. -/
def emptyAPI : RemoteAPI :=
  { repoListing := fun _ => [], repoIssues := fun _ _ => [],
    singleIssue := fun _ _ _ => none }

/-- An environment with no default token against the empty remote. -/
def emptyEnv : CollectEnv :=
  { envToken := none, api := emptyAPI, netFails := fun _ => false, now := 0 }

/-- Witness for C2 at a concrete repository-less single-issue request. -/
theorem issue_number_requires_repo_witness :
    (collect c2Input emptyEnv []).1 = .error .validation ∧
      (collect c2Input emptyEnv []).2 = [] :=
  issue_number_requires_repo c2Input emptyEnv [] 42 rfl rfl

/-- A run with downloads enabled and no token anywhere, whose search is
destined to find nothing. -/
def c10Input : CollectInput :=
  { org := "acme", repo := none, issue_number := none, labels := [],
    limit := 10, state := "closed", token := none,
    download_attachments := true, max_attachment_size := 10,
    dates := ⟨none, none, none, none, none, none, none⟩,
    exclude_repo := [], exclude_repos := none }

/-- C10 counterexample: attachment downloading is enabled and no credential
token is resolved (no option, no environment default), yet when the search
finds zero issues `collect` returns success, not an error — the
empty-result early return of `collect.py` lines 271-273 runs before the
token check of lines 278-282. -/
theorem no_token_empty_search_succeeds :
    c10Input.download_attachments = true ∧ c10Input.token = none ∧
      emptyEnv.envToken = none ∧
      (collect c10Input emptyEnv []).1 = .ok ([], []) :=
  ⟨rfl, rfl, rfl, rfl⟩

/-- C10 amended: when attachment downloading is enabled, no credential
token is resolved, and the search returns at least one issue, `collect`
aborts with an auth error after the search completes, and none of the
issues found in that run are persisted (the error outcome carries no
store; the input store is untouched). -/
theorem no_token_nonempty_search_aborts (inp : CollectInput) (env : CollectEnv)
    (store : Store) (d : ResolvedDates) (mode : Mode)
    (issues : List GitHubIssue)
    (hd : validate_date_parameters env.now inp.dates = .ok d)
    (hm : collection_mode inp.issue_number inp.repo = .ok mode)
    (hs : collectSearch inp env mode (collectExcluded inp mode) = .ok issues)
    (hne : issues ≠ [])
    (hdl : inp.download_attachments = true)
    (ht : inp.token = none) (he : env.envToken = none) :
    (collect inp env store).1 = .error .auth ∧
      (collect inp env store).2 = [Event.clientInit, Event.apiCall] := by
  have hie : issues.isEmpty = false := by
    cases issues with
    | nil => exact absurd rfl hne
    | cons x xs => rfl
  unfold collect
  rw [hd, hm]
  simp [hs, hie, hdl, ht, he, resolveToken]

/-- A remote whose organization listing serves one repository holding one
issue. -/
def oneIssueAPI : RemoteAPI :=
  { repoListing := fun _ => ["widgets"],
    repoIssues := fun _ _ => [sampleIssue],
    singleIssue := fun _ _ _ => none }

/-- An environment with no default token against the one-issue remote. -/
def oneIssueEnv : CollectEnv :=
  { envToken := none, api := oneIssueAPI, netFails := fun _ => false, now := 0 }

/-- Witness for the amended C10: with one issue found and no token, the run
aborts with an auth error. -/
theorem no_token_nonempty_search_aborts_witness :
    (collect c10Input oneIssueEnv []).1 = .error .auth ∧
      (collect c10Input oneIssueEnv []).2 = [Event.clientInit, Event.apiCall] :=
  no_token_nonempty_search_aborts c10Input oneIssueEnv []
    ⟨none, none, none, none⟩ Mode.organization [tagRepo "widgets" sampleIssue]
    rfl rfl rfl (by simp) rfl rfl rfl

end GhCollect
